import Mathlib

/-
Formal model of the conversation session and continuation engine of the
CLIP command-line chat client (src/index.js).

The program is a single Node.js file built around module-level mutable
state (lines 22-38 of src/index.js).  We model that state as one record,
`SessionState`, and each state-mutating routine of the source as a pure
function from state to state.  JavaScript objects keyed by conversation id
(`conversationHistories`, `responseHistory`) are modelled as association
lists with `lookupA`/`setA`; JavaScript string truthiness (null, undefined
and "" are falsy) is modelled by `optTruthy`; `Date.now()` is passed in
explicitly as a `now : Nat` parameter wherever the source reads the clock.
JSON strings are kept abstract: a persisted file either parses to a typed
value or is corrupt (`Parsed`), which is what `JSON.parse` distinguishes.
-/

namespace Clip

/-- Message, as built at src/index.js lines 762-763 and 912-913:
objects of shape { role, content }. -/
structure Message where
  role : String
  content : String
deriving DecidableEq, Repr

/-- ResponseRecord, as built by saveResponseToHistory (src/index.js lines
303-309): the per-conversation history entry.  Note the source keeps BOTH a
truncated display string in `response` and the complete text in
`fullResponse`. -/
structure HistoryEntry where
  prompt : String
  response : String
  fullResponse : String
  id : String
  timestamp : Nat
deriving DecidableEq, Repr

/-- Entry of the global cross-conversation history list, built by
spreading a history entry and adding its conversation id
(src/index.js line 325 and line 215). -/
structure GlobalEntry extends HistoryEntry where
  conversationId : String
deriving DecidableEq, Repr

/-- The module-level mutable state of src/index.js lines 22-38:
command history, the six session/continuation variables, and the three
history stores. -/
structure SessionState where
  lastResponseId : Option String
  conversationContext : List Message
  currentConversationId : Option String
  pausedConversation : Bool
  pausedConversationContext : List Message
  pausedConversationId : Option String
  commandHistory : List String
  conversationHistories : List (String × List String)
  responseHistory : List (String × List HistoryEntry)
  allResponseHistory : List GlobalEntry
deriving DecidableEq, Repr

/-- Lookup in a string-keyed JavaScript object modelled as an association
list: the first binding for the key wins. -/
def lookupA {α : Type} : List (String × α) → String → Option α
  | [], _ => none
  | (k, v) :: rest, key => if k = key then some v else lookupA rest key

/-- Assignment `obj[key] = v` on a string-keyed JavaScript object:
overwrite the existing binding, or append a new one. -/
def setA {α : Type} : List (String × α) → String → α → List (String × α)
  | [], key, v => [(key, v)]
  | (k, w) :: rest, key, v =>
      if k = key then (key, v) :: rest else (k, w) :: setA rest key v

/-- JavaScript truthiness of a nullable string: null and "" are falsy
(src/index.js tests such as `if (currentConversationId)` at line 757). -/
def optTruthy : Option String → Bool
  | some s => !(s == "")
  | none => false

/-- MAX_HISTORY constant, src/index.js line 41. -/
def MAX_HISTORY : Nat := 50

/-- The display copy of a response stored in the `response` field:
`aiResponse.substring(0, 100) + (aiResponse.length > 100 ? '...' : '')`
(src/index.js line 305).  JavaScript counts UTF-16 units where Lean counts
characters; the difference is immaterial to the claims. -/
def displayResponse (aiResponse : String) : String :=
  (aiResponse.take 100) ++ (if 100 < aiResponse.length then "..." else "")

/-- The history entry object literal of src/index.js lines 303-309. -/
def mkHistoryEntry (userPrompt aiResponse responseId : String) (now : Nat) :
    HistoryEntry :=
  { prompt := userPrompt
    response := displayResponse aiResponse
    fullResponse := aiResponse
    id := responseId
    timestamp := now }

/-- Capacity cap applied after an unshift:
`if (l.length > cap) l = l.slice(0, cap)` (src/index.js lines 320-322 and
326-328). -/
def capList {α : Type} (cap : Nat) (l : List α) : List α :=
  if cap < l.length then l.take cap else l

/-- Prepend a record to one conversation's history list and evict past
capacity (src/index.js lines 317-322). -/
def insertRecord (entry : HistoryEntry) (l : List HistoryEntry) :
    List HistoryEntry :=
  capList MAX_HISTORY (entry :: l)

/-- Prepend a record to the global history list and evict past the larger
global capacity (src/index.js lines 325-328). -/
def insertGlobalRecord (entry : GlobalEntry) (l : List GlobalEntry) :
    List GlobalEntry :=
  capList (MAX_HISTORY * 5) (entry :: l)

/-- saveResponseToHistory, src/index.js lines 300-338: guarded by the
truthiness of responseId, aiResponse and currentConversationId, build a
history entry, unshift it into the conversation's list and the global
list, cap both, and write the conversation's response file (the file write
is reflected by `diskOf` below). -/
def saveResponseToHistory (userPrompt aiResponse : String)
    (responseId : Option String) (now : Nat) (st : SessionState) :
    SessionState :=
  match responseId, st.currentConversationId with
  | some rid, some cid =>
      if rid = "" ∨ aiResponse = "" ∨ cid = "" then st
      else
        let historyEntry := mkHistoryEntry userPrompt aiResponse rid now
        let convList :=
          insertRecord historyEntry ((lookupA st.responseHistory cid).getD [])
        let globalEntry : GlobalEntry :=
          { toHistoryEntry := historyEntry, conversationId := cid }
        { st with
            responseHistory := setA st.responseHistory cid convList
            allResponseHistory :=
              insertGlobalRecord globalEntry st.allResponseHistory }
  | _, _ => st

/-- Fuel-driven decimal digit expansion of a natural number, most
significant digit first; the fuel argument makes it structurally
recursive, mirroring Nat.toDigitsCore in the Lean core library. -/
def decDigitsAux : Nat → Nat → List Nat
  | 0, _ => []
  | fuel + 1, n =>
      if n < 10 then [n] else decDigitsAux fuel (n / 10) ++ [n % 10]

/-- Decimal digits of a natural number; `n + 1` fuel always suffices. -/
def decDigits (n : Nat) : List Nat := decDigitsAux (n + 1) n

/-- Decimal digit to character. -/
def digitChar10 : Nat → Char
  | 0 => '0'
  | 1 => '1'
  | 2 => '2'
  | 3 => '3'
  | 4 => '4'
  | 5 => '5'
  | 6 => '6'
  | 7 => '7'
  | 8 => '8'
  | _ => '9'

/-- Decimal rendering of a natural number, the semantics of the template
interpolation of a JavaScript number with an integral value. -/
def natToDec (n : Nat) : String :=
  String.mk ((decDigits n).map digitChar10)

/-- Conversation id minting, the template `conv_` + Date.now() used at
src/index.js lines 399, 758, 908, 1145, 1269 and 1311. -/
def mintConvId (now : Nat) : String :=
  "conv_" ++ natToDec now

/-- The context update of a completed exchange (src/index.js lines
915-926): append a user message for the prompt unless the context's last
message is an identical user turn (the duplicate guard), then append the
assistant message. -/
def buildContext (ctx : List Message) (prompt full : String) : List Message :=
  (if ctx.length = 0 then [{ role := "user", content := prompt }]
   else
     match ctx.getLast? with
     | some lastMessage =>
         if lastMessage.role = "user" ∧ lastMessage.content = prompt then ctx
         else ctx ++ [{ role := "user", content := prompt }]
     | none => ctx ++ [{ role := "user", content := prompt }]) ++
  [{ role := "assistant", content := full }]

/-- Exchange capture after a model response is fully received:
src/index.js lines 905-944 (the streaming path; the non-streaming path at
lines 749-788 performs the same state transition, with lastResponseId
assigned just before the context mutation instead of after).  When the
response text is non-empty: ensure a conversation id exists, append the
user message unless the last context message is an identical user turn,
append the assistant message, snapshot the context into the paused fields,
record lastResponseId and the history entry when a response id is present
(warn and null it otherwise), and clear the active context. -/
def appendExchange (prompt fullResponse : String) (responseId : Option String)
    (now : Nat) (st : SessionState) : SessionState :=
  if fullResponse = "" then st
  else
    let st0 : SessionState :=
      if optTruthy st.currentConversationId then st
      else { st with currentConversationId := some (mintConvId now) }
    let ctx := buildContext st0.conversationContext prompt fullResponse
    let st1 : SessionState :=
      { st0 with
          conversationContext := ctx
          pausedConversationContext := ctx
          pausedConversationId := st0.currentConversationId
          pausedConversation := true }
    let st2 : SessionState :=
      match responseId with
      | some rid =>
          if rid = "" then { st1 with lastResponseId := none }
          else
            saveResponseToHistory prompt fullResponse (some rid) now
              { st1 with lastResponseId := some rid }
      | none => { st1 with lastResponseId := none }
    { st2 with conversationContext := [] }

/-- The historyIndex argument of continueConversation as computed by the
continue command handler (src/index.js lines 1089-1094): null when no
number was given, otherwise `parseInt(arg, 10) - 1`, which is NaN when the
argument does not parse.  NaN is not null and every numeric comparison
with it is false, so it needs its own constructor. -/
inductive HistoryIdx where
  | null
  | int (i : Int)
  | nan
deriving DecidableEq, Repr

/-- The responses of the current conversation,
`currentConversationId && responseHistory[currentConversationId] ? ... : []`
(src/index.js lines 1255-1257). -/
def currentResponses (st : SessionState) : List HistoryEntry :=
  match st.currentConversationId with
  | some cid => if cid = "" then [] else (lookupA st.responseHistory cid).getD []
  | none => []

/-- The explicit-index test and selection of src/index.js line 1260:
`historyIndex !== null && historyIndex >= 0 && historyIndex < currentResponses.length`,
returning the selected record when the test passes. -/
def selectIdx (historyIndex : HistoryIdx) (resps : List HistoryEntry) :
    Option HistoryEntry :=
  match historyIndex with
  | HistoryIdx.int i =>
      if 0 ≤ i ∧ i < (resps.length : Int) then resps[i.toNat]? else none
  | _ => none

/-- The lastResponseId recovery scan of the implicit-resume path
(src/index.js lines 1220-1236): when the restored context has at least two
messages, take the most recent assistant message of the paused snapshot
and find, in the restored conversation's response history, the record
whose full response text equals its content. -/
def recoveredResponse (st : SessionState) : Option HistoryEntry :=
  if 2 ≤ st.pausedConversationContext.length then
    let lastAssistantMessage :=
      (st.pausedConversationContext.filter
        (fun msg => decide (msg.role = "assistant"))).getLast?
    match st.pausedConversationId with
    | some cid =>
        if cid = "" then none
        else
          match lookupA st.responseHistory cid with
          | some resps =>
              resps.find? (fun resp =>
                decide (lastAssistantMessage.map Message.content =
                  some resp.fullResponse))
          | none => none
    | none => none
  else none

/-- Cross-conversation fallback of the resolver (src/index.js lines
1304-1326): branch from the globally most recent record under a freshly
minted conversation id, or report that there is nothing to continue from
(the returned Bool; false accompanies the "No response history available"
message). -/
def continueFallback (now : Nat) (st : SessionState) : SessionState × Bool :=
  match st.allResponseHistory with
  | lastResponse :: _ =>
      ({ st with
          lastResponseId := some lastResponse.id
          currentConversationId := some (mintConvId now)
          conversationContext :=
            [{ role := "user", content := lastResponse.prompt },
             { role := "assistant", content := lastResponse.fullResponse }] },
        true)
  | [] => (st, false)

/-- continueConversation, src/index.js lines 1211-1327: the Continuation
Resolver.  Path 1 resumes the paused conversation when no index was given;
path 2 continues from a valid explicit index into the current
conversation's history; path 3 continues from the current conversation's
most recent record; path 4 is the cross-conversation fallback; otherwise
nothing can be resumed and the state is returned unchanged with false. -/
def continueConversation (historyIndex : HistoryIdx) (now : Nat)
    (st : SessionState) : SessionState × Bool :=
  if historyIndex = HistoryIdx.null ∧ st.pausedConversation = true then
    let st1 : SessionState :=
      { st with
          conversationContext := st.pausedConversationContext
          currentConversationId := st.pausedConversationId }
    let st2 : SessionState :=
      match recoveredResponse st with
      | some matchingResponse =>
          { st1 with lastResponseId := some matchingResponse.id }
      | none => st1
    let st3 : SessionState :=
      match st2.currentConversationId with
      | some cid =>
          if cid = "" then st2
          else
            match lookupA st2.conversationHistories cid with
            | some hist => { st2 with commandHistory := hist }
            | none => st2
      | none => st2
    ({ st3 with
        pausedConversation := false
        pausedConversationContext := []
        pausedConversationId := none },
      true)
  else
    match selectIdx historyIndex (currentResponses st) with
    | some selectedResponse =>
        let stA : SessionState := { st with lastResponseId := some selectedResponse.id }
        let stB : SessionState :=
          if optTruthy stA.currentConversationId then stA
          else { stA with currentConversationId := some (mintConvId now) }
        ({ stB with
            conversationContext :=
              [{ role := "user", content := selectedResponse.prompt },
               { role := "assistant", content := selectedResponse.fullResponse }] },
          true)
    | none =>
        match st.currentConversationId with
        | some cid =>
            if cid = "" then continueFallback now st
            else
              match lookupA st.responseHistory cid with
              | some (lastResponse :: _) =>
                  ({ st with
                      lastResponseId := some lastResponse.id
                      conversationContext :=
                        [{ role := "user", content := lastResponse.prompt },
                         { role := "assistant", content := lastResponse.fullResponse }] },
                    true)
              | some [] => continueFallback now st
              | none => continueFallback now st
        | none => continueFallback now st

/-- Outcome of JSON.parse on one persisted file: a typed value, or an
exception for unparseable content. -/
inductive Parsed (α : Type) where
  | ok (value : α)
  | corrupt
deriving DecidableEq, Repr

/-- Shape of state.json (src/index.js lines 249-256). -/
structure StateFile where
  lastResponseId : Option String
  conversationContext : List Message
  currentConversationId : Option String
  pausedConversation : Bool
  pausedConversationContext : List Message
  pausedConversationId : Option String
deriving DecidableEq, Repr

/-- The on-disk store read by loadState: state.json (absent on first run),
the conversations directory and the responses directory, each directory a
list of (conversation id, parse outcome) in enumeration order. -/
structure Disk where
  stateFile : Option (Parsed StateFile)
  conversationFiles : List (String × Parsed (List String))
  responseFiles : List (String × Parsed (List HistoryEntry))
deriving DecidableEq, Repr

/-- JSON.parse: return the value or throw. -/
def parseJSON {α : Type} : Parsed α → Except Unit α
  | Parsed.ok value => Except.ok value
  | Parsed.corrupt => Except.error ()

/-- Assign the six state.json fields into the globals
(src/index.js lines 183-188). -/
def applyStateFile (st : SessionState) (s : StateFile) : SessionState :=
  { st with
      lastResponseId := s.lastResponseId
      conversationContext := s.conversationContext
      currentConversationId := s.currentConversationId
      pausedConversation := s.pausedConversation
      pausedConversationContext := s.pausedConversationContext
      pausedConversationId := s.pausedConversationId }

/-- Load one conversations/<id>.json file:
`conversationHistories[convId] = convData.history || []`
(src/index.js lines 194-199). -/
def convStep (st : SessionState) (file : String × Parsed (List String)) :
    Except Unit SessionState := do
  let hist ← parseJSON file.2
  pure { st with conversationHistories := setA st.conversationHistories file.1 hist }

/-- Tag a conversation's records with its id for the global view,
`respData.map(r => ({...r, conversationId: convId}))`
(src/index.js line 215). -/
def tagRecords (cid : String) (resps : List HistoryEntry) : List GlobalEntry :=
  resps.map (fun r => { toHistoryEntry := r, conversationId := cid })

/-- Load one responses/<id>.json file: store the conversation's list and
concatenate its tagged records onto the global view
(src/index.js lines 206-217). -/
def respStep (st : SessionState) (file : String × Parsed (List HistoryEntry)) :
    Except Unit SessionState := do
  let respData ← parseJSON file.2
  pure { st with
          responseHistory := setA st.responseHistory file.1 respData
          allResponseHistory := st.allResponseHistory ++ tagRecords file.1 respData }

/-- The defensive re-sort of the merged global view,
`allResponseHistory.sort((a, b) => b.timestamp - a.timestamp)`
(src/index.js line 223); Array.prototype.sort is stable. -/
def sortByTimestampDesc (l : List GlobalEntry) : List GlobalEntry :=
  l.mergeSort (fun a b => decide (b.timestamp ≤ a.timestamp))

/-- The state.json phase of loadState (src/index.js lines 170-189): a
missing file only writes back a default and leaves the globals alone; a
present file is parsed and its six fields assigned. -/
def stateFileStep (st : SessionState) (p : Option (Parsed StateFile)) :
    Except Unit SessionState :=
  match p with
  | none => pure st
  | some q => do
      let s ← parseJSON q
      pure (applyStateFile st s)

/-- The body of loadState's try block (src/index.js lines 168-223): read
state.json if present, then every conversation file, then every response
file, then sort the merged global view.  Any JSON.parse throw escapes to
the catch. -/
def loadStateCore (st : SessionState) (d : Disk) : Except Unit SessionState := do
  let st ← stateFileStep st d.stateFile
  let st ← d.conversationFiles.foldlM convStep st
  let st ← d.responseFiles.foldlM respStep st
  pure { st with allResponseHistory := sortByTimestampDesc st.allResponseHistory }

/-- resetState, src/index.js lines 233-244: every global back to its
initial value.  This is also the state of the module's globals at process
start (lines 22-38). -/
def resetState : SessionState :=
  { lastResponseId := none
    conversationContext := []
    currentConversationId := none
    pausedConversation := false
    pausedConversationContext := []
    pausedConversationId := none
    commandHistory := []
    conversationHistories := []
    responseHistory := []
    allResponseHistory := [] }

/-- loadState, src/index.js lines 167-230: run the try block; on any
error, log and fall back to resetState(). -/
def loadState (st : SessionState) (d : Disk) : SessionState :=
  match loadStateCore st d with
  | Except.ok s => s
  | Except.error _ => resetState

/-- The state initialization of startCLI (src/index.js lines 487-504):
load state from files, then always start with a fresh conversation — the
six session variables and the command history are cleared, only the
loaded response histories (and conversation histories) are kept — and
save that clean state. -/
def startCLI (d : Disk) : SessionState :=
  let st := loadState resetState d
  { st with
      lastResponseId := none
      conversationContext := []
      currentConversationId := none
      pausedConversation := false
      pausedConversationContext := []
      pausedConversationId := none
      commandHistory := [] }

/-- The state.json contents written by saveState (src/index.js lines
249-257). -/
def stateFileOf (st : SessionState) : StateFile :=
  { lastResponseId := st.lastResponseId
    conversationContext := st.conversationContext
    currentConversationId := st.currentConversationId
    pausedConversation := st.pausedConversation
    pausedConversationContext := st.pausedConversationContext
    pausedConversationId := st.pausedConversationId }

/-- The disk image of a session on which every write has been flushed:
state.json from saveState (lines 249-257), one conversations/<id>.json per
conversation (lines 260-267), and one responses/<id>.json per conversation
from saveResponseToHistory (lines 331-333), all well-formed JSON. -/
def diskOf (st : SessionState) : Disk :=
  { stateFile := some (Parsed.ok (stateFileOf st))
    conversationFiles := st.conversationHistories.map (fun p => (p.1, Parsed.ok p.2))
    responseFiles := st.responseHistory.map (fun p => (p.1, Parsed.ok p.2)) }

/-- Session state right after promptUser mints the first conversation of a
fresh run (src/index.js lines 1144-1148). -/
def exampleStart : SessionState :=
  { resetState with
      currentConversationId := some (mintConvId 1)
      conversationHistories := [(mintConvId 1, [])] }

/-- Session state after the exchange appendExchange("hi", "hello!",
"resp_1") completes on exampleStart: the paused state of the spec's
resume scenario. -/
def examplePaused : SessionState :=
  appendExchange "hi" "hello!" (some "resp_1") 7 exampleStart

/-- Three response records of one conversation, most recent first, for
the explicit-index scenario. -/
def entryW4a : HistoryEntry := mkHistoryEntry "p1" "r1" "id1" 30
def entryW4b : HistoryEntry := mkHistoryEntry "p2" "r2" "id2" 20
def entryW4c : HistoryEntry := mkHistoryEntry "p3" "r3" "id3" 10

/-- A current conversation with three records. -/
def stateW4 : SessionState :=
  { resetState with
      currentConversationId := some (mintConvId 1)
      responseHistory := [(mintConvId 1, [entryW4a, entryW4b, entryW4c])] }

/-- A single record of the current conversation, for the invalid-index
counterexample. -/
def entryW5 : HistoryEntry := mkHistoryEntry "p" "r" "resp_1" 3

/-- A current conversation with exactly one record and no paused
snapshot. -/
def stateW5 : SessionState :=
  { resetState with
      currentConversationId := some (mintConvId 1)
      responseHistory := [(mintConvId 1, [entryW5])] }

/-- A well-formed state.json content whose fields are visibly non-default. -/
def stateFileW6 : StateFile :=
  { lastResponseId := some "resp_1"
    conversationContext := []
    currentConversationId := some (mintConvId 1)
    pausedConversation := false
    pausedConversationContext := []
    pausedConversationId := none }

/-- A record stored in the intact response file of the corruption
counterexample. -/
def entryW6 : HistoryEntry := mkHistoryEntry "p" "r" "resp_1" 1

/-- A disk with a good state file, one intact response file and one
corrupt response file. -/
def diskW6 : Disk :=
  { stateFile := some (Parsed.ok stateFileW6)
    conversationFiles := []
    responseFiles := [("conv_good", Parsed.ok [entryW6]), ("conv_bad", Parsed.corrupt)] }

/-- A response text of 150 characters, exceeding the 100-character display
truncation threshold. -/
def longResponse : String := String.mk (List.replicate 150 'a')

/-- A state inside a conversation, ready to record a response. -/
def stateW7 : SessionState :=
  { resetState with currentConversationId := some (mintConvId 1) }

/-- The globally most recent record, belonging to an old conversation
minted at time 1. -/
def entryW8 : GlobalEntry :=
  { toHistoryEntry := mkHistoryEntry "po" "ro" "resp_old" 5
    conversationId := mintConvId 1 }

/-- A state with no current conversation and a non-empty global history. -/
def stateW8 : SessionState :=
  { resetState with allResponseHistory := [entryW8] }

/-- A record of the current conversation for the frame-effect scenario. -/
def entryW10 : HistoryEntry := mkHistoryEntry "q" "s" "resp_2" 9

/-- A state that is paused on conversation conv_1 while conv_2 is current
with one record: an explicit-index continuation resolves via path 2 and
must not disturb the paused snapshot. -/
def stateW10 : SessionState :=
  { resetState with
      pausedConversation := true
      pausedConversationContext :=
        [{ role := "user", content := "a" }, { role := "assistant", content := "b" }]
      pausedConversationId := some (mintConvId 1)
      currentConversationId := some (mintConvId 2)
      responseHistory := [(mintConvId 2, [entryW10])] }

/-- Fifty-one records with distinct timestamps, in insertion order. -/
def recordsW9 : List HistoryEntry :=
  (List.range 51).map (fun i => mkHistoryEntry "p" "r" "id" i)

theorem capList_eq_take {α : Type} (cap : Nat) (l : List α) :
    capList cap l = l.take cap := by
  unfold capList
  split
  · rfl
  · exact (List.take_of_length_le (by omega)).symm

theorem take_append_take {α : Type} (xs ys : List α) (n : Nat) :
    (xs ++ ys.take n).take n = (xs ++ ys).take n := by
  rw [List.take_append_eq_append_take, List.take_append_eq_append_take,
    List.take_take]
  congr 1
  congr 1
  omega

theorem foldl_capCons {α : Type} (cap : Nat) (rs acc : List α)
    (h : acc.length ≤ cap) :
    rs.foldl (fun a r => capList cap (r :: a)) acc =
      (rs.reverse ++ acc).take cap := by
  induction rs generalizing acc with
  | nil => simp [List.take_of_length_le h]
  | cons r rest ih =>
      have hstep : capList cap (r :: acc) = (r :: acc).take cap :=
        capList_eq_take cap (r :: acc)
      have hlen : ((r :: acc).take cap).length ≤ cap := by
        simp [List.length_take]
      calc (r :: rest).foldl (fun a x => capList cap (x :: a)) acc
          = rest.foldl (fun a x => capList cap (x :: a)) ((r :: acc).take cap) := by
            simp [hstep]
        _ = (rest.reverse ++ (r :: acc).take cap).take cap := ih _ hlen
        _ = (rest.reverse ++ (r :: acc)).take cap := take_append_take _ _ _
        _ = ((r :: rest).reverse ++ acc).take cap := by
            simp

/-- Value of a most-significant-first decimal digit list. -/
def decVal (ds : List Nat) : Nat := ds.foldl (fun a d => 10 * a + d) 0

theorem decVal_append (ds : List Nat) (d : Nat) :
    decVal (ds ++ [d]) = 10 * decVal ds + d := by
  simp [decVal, List.foldl_append]

theorem decVal_decDigitsAux (fuel : Nat) :
    ∀ n, n < fuel → decVal (decDigitsAux fuel n) = n := by
  induction fuel with
  | zero => intro n h; omega
  | succ f ih =>
      intro n h
      unfold decDigitsAux
      split
      · simp [decVal]
      · have h10 : 10 ≤ n := by omega
        have hrec : n / 10 < f := by omega
        rw [decVal_append, ih _ hrec]
        omega

theorem decVal_decDigits (n : Nat) : decVal (decDigits n) = n :=
  decVal_decDigitsAux (n + 1) n (Nat.lt_succ_self n)

theorem decDigitsAux_lt_ten (fuel : Nat) :
    ∀ n, ∀ d ∈ decDigitsAux fuel n, d < 10 := by
  induction fuel with
  | zero => intro n d hd; simp [decDigitsAux] at hd
  | succ f ih =>
      intro n d hd
      unfold decDigitsAux at hd
      split at hd
      · simp at hd
        omega
      · rcases List.mem_append.mp hd with h | h
        · exact ih _ _ h
        · simp at h
          omega

theorem decDigits_lt_ten (n : Nat) : ∀ d ∈ decDigits n, d < 10 :=
  decDigitsAux_lt_ten (n + 1) n

theorem digitChar10_inj (a b : Nat) (ha : a < 10) (hb : b < 10)
    (h : digitChar10 a = digitChar10 b) : a = b := by
  interval_cases a <;> interval_cases b <;> simp_all [digitChar10]

theorem map_digitChar10_inj :
    ∀ (xs ys : List Nat), (∀ d ∈ xs, d < 10) → (∀ d ∈ ys, d < 10) →
      xs.map digitChar10 = ys.map digitChar10 → xs = ys := by
  intro xs
  induction xs with
  | nil => intro ys _ _ h; cases ys <;> simp_all
  | cons x xs ih =>
      intro ys hx hy h
      cases ys with
      | nil => simp_all
      | cons y ys =>
          simp only [List.map_cons, List.cons.injEq] at h
          have hxy : x = y :=
            digitChar10_inj x y (hx x (by simp)) (hy y (by simp)) h.1
          have := ih ys (fun d hd => hx d (by simp [hd]))
            (fun d hd => hy d (by simp [hd])) h.2
          simp [hxy, this]

theorem natToDec_injective (m n : Nat) (h : natToDec m = natToDec n) :
    m = n := by
  unfold natToDec at h
  have hdata : (decDigits m).map digitChar10 = (decDigits n).map digitChar10 := by
    have := congrArg String.data h
    simpa using this
  have : decDigits m = decDigits n :=
    map_digitChar10_inj _ _ (decDigits_lt_ten m) (decDigits_lt_ten n) hdata
  calc m = decVal (decDigits m) := (decVal_decDigits m).symm
    _ = decVal (decDigits n) := by rw [this]
    _ = n := decVal_decDigits n

theorem mintConvId_injective (m n : Nat) (h : mintConvId m = mintConvId n) :
    m = n := by
  unfold mintConvId at h
  have hdata : ("conv_" ++ natToDec m).data = ("conv_" ++ natToDec n).data := by
    rw [h]
  simp only [String.data_append] at hdata
  have : (natToDec m).data = (natToDec n).data :=
    List.append_cancel_left hdata
  exact natToDec_injective m n (String.ext this)

theorem saveResponseToHistory_lastResponseId (p a : String) (rid : Option String)
    (now : Nat) (st : SessionState) :
    (saveResponseToHistory p a rid now st).lastResponseId = st.lastResponseId := by
  unfold saveResponseToHistory
  repeat' split
  all_goals rfl

theorem saveResponseToHistory_currentConversationId (p a : String)
    (rid : Option String) (now : Nat) (st : SessionState) :
    (saveResponseToHistory p a rid now st).currentConversationId =
      st.currentConversationId := by
  unfold saveResponseToHistory
  repeat' split
  all_goals rfl

theorem saveResponseToHistory_conversationContext (p a : String)
    (rid : Option String) (now : Nat) (st : SessionState) :
    (saveResponseToHistory p a rid now st).conversationContext =
      st.conversationContext := by
  unfold saveResponseToHistory
  repeat' split
  all_goals rfl

theorem saveResponseToHistory_pausedConversation (p a : String)
    (rid : Option String) (now : Nat) (st : SessionState) :
    (saveResponseToHistory p a rid now st).pausedConversation =
      st.pausedConversation := by
  unfold saveResponseToHistory
  repeat' split
  all_goals rfl

theorem saveResponseToHistory_pausedConversationContext (p a : String)
    (rid : Option String) (now : Nat) (st : SessionState) :
    (saveResponseToHistory p a rid now st).pausedConversationContext =
      st.pausedConversationContext := by
  unfold saveResponseToHistory
  repeat' split
  all_goals rfl

theorem saveResponseToHistory_pausedConversationId (p a : String)
    (rid : Option String) (now : Nat) (st : SessionState) :
    (saveResponseToHistory p a rid now st).pausedConversationId =
      st.pausedConversationId := by
  unfold saveResponseToHistory
  repeat' split
  all_goals rfl

theorem lookupA_setA_self {α : Type} (m : List (String × α)) (k : String) (v : α) :
    lookupA (setA m k v) k = some v := by
  induction m with
  | nil => simp [setA, lookupA]
  | cons p rest ih =>
      by_cases h : p.1 = k
      · simp [setA, h, lookupA]
      · simp [setA, h, lookupA, ih]

theorem lookupA_append {α : Type} (a b : List (String × α)) (k : String) :
    lookupA (a ++ b) k = ((lookupA a k).rec (lookupA b k) (fun v => some v)) := by
  induction a with
  | nil => simp [lookupA]
  | cons p rest ih =>
      by_cases h : p.1 = k
      · simp [lookupA, h]
      · simp [lookupA, h, ih]

theorem setA_of_lookupA_none {α : Type} (m : List (String × α)) (k : String)
    (v : α) (h : lookupA m k = none) : setA m k v = m ++ [(k, v)] := by
  induction m with
  | nil => simp [setA]
  | cons p rest ih =>
      by_cases hk : p.1 = k
      · simp [lookupA, hk] at h
      · simp [lookupA, hk] at h
        simp [setA, hk, ih h]

theorem foldl_setA_of_nodup {α : Type} :
    ∀ (pairs acc : List (String × α)),
      (∀ p ∈ pairs, lookupA acc p.1 = none) →
      (pairs.map Prod.fst).Nodup →
      pairs.foldl (fun m p => setA m p.1 p.2) acc = acc ++ pairs := by
  intro pairs
  induction pairs with
  | nil => intro acc _ _; simp
  | cons p rest ih =>
      intro acc hnone hnodup
      have hpacc : lookupA acc p.1 = none := hnone p (by simp)
      have hstep : setA acc p.1 p.2 = acc ++ [(p.1, p.2)] :=
        setA_of_lookupA_none acc p.1 p.2 hpacc
      simp only [List.map_cons, List.nodup_cons] at hnodup
      have hrest : ∀ q ∈ rest, lookupA (acc ++ [(p.1, p.2)]) q.1 = none := by
        intro q hq
        rw [lookupA_append, hnone q (by simp [hq])]
        have hne : p.1 ≠ q.1 := by
          intro hEq
          exact hnodup.1 (hEq ▸ List.mem_map_of_mem Prod.fst hq)
        simp [lookupA, hne]
      calc (p :: rest).foldl (fun m q => setA m q.1 q.2) acc
          = rest.foldl (fun m q => setA m q.1 q.2) (acc ++ [(p.1, p.2)]) := by
            simp [hstep]
        _ = (acc ++ [(p.1, p.2)]) ++ rest := ih _ hrest hnodup.2
        _ = acc ++ (p :: rest) := by simp

theorem foldlM_convStep_ok (files : List (String × List String)) :
    ∀ st : SessionState,
      (files.map (fun p => (p.1, Parsed.ok p.2))).foldlM convStep st =
        Except.ok { st with
          conversationHistories :=
            files.foldl (fun m p => setA m p.1 p.2) st.conversationHistories } := by
  induction files with
  | nil => intro st; simp; rfl
  | cons p rest ih =>
      intro st
      rw [List.map_cons, List.foldlM_cons]
      have hthis := ih
        { st with conversationHistories := setA st.conversationHistories p.1 p.2 }
      exact hthis.trans (by rw [List.foldl_cons])

theorem foldlM_respStep_ok (files : List (String × List HistoryEntry)) :
    ∀ st : SessionState,
      (files.map (fun p => (p.1, Parsed.ok p.2))).foldlM respStep st =
        Except.ok { st with
          responseHistory :=
            files.foldl (fun m p => setA m p.1 p.2) st.responseHistory
          allResponseHistory :=
            st.allResponseHistory ++
              (files.map (fun p => tagRecords p.1 p.2)).flatten } := by
  induction files with
  | nil => intro st; simp; rfl
  | cons p rest ih =>
      intro st
      rw [List.map_cons, List.foldlM_cons]
      have hthis := ih
        { st with responseHistory := setA st.responseHistory p.1 p.2,
                  allResponseHistory := st.allResponseHistory ++ tagRecords p.1 p.2 }
      refine hthis.trans ?_
      rw [List.foldl_cons, List.map_cons, List.flatten_cons]
      simp [List.append_assoc]

theorem foldlM_convStep_corrupt :
    ∀ (files : List (String × Parsed (List String))) (st : SessionState),
      (∃ f ∈ files, f.2 = Parsed.corrupt) →
      files.foldlM convStep st = Except.error () := by
  intro files
  induction files with
  | nil => intro st h; simp at h
  | cons f rest ih =>
      intro st h
      rw [List.foldlM_cons]
      cases hf : f.2 with
      | corrupt =>
          rw [show convStep st f = Except.error () by
            unfold convStep parseJSON
            rw [hf]
            rfl]
          rfl
      | ok v =>
          have hr : ∃ g ∈ rest, g.2 = Parsed.corrupt := by
            rcases h with ⟨g, hg, hgc⟩
            rcases List.mem_cons.mp hg with hgf | hgr
            · rw [hgf] at hgc; rw [hgc] at hf; cases hf
            · exact ⟨g, hgr, hgc⟩
          rw [show convStep st f = Except.ok
              { st with conversationHistories := setA st.conversationHistories f.1 v } by
            unfold convStep parseJSON
            rw [hf]
            rfl]
          exact ih _ hr

theorem foldlM_respStep_corrupt :
    ∀ (files : List (String × Parsed (List HistoryEntry))) (st : SessionState),
      (∃ f ∈ files, f.2 = Parsed.corrupt) →
      files.foldlM respStep st = Except.error () := by
  intro files
  induction files with
  | nil => intro st h; simp at h
  | cons f rest ih =>
      intro st h
      rw [List.foldlM_cons]
      cases hf : f.2 with
      | corrupt =>
          rw [show respStep st f = Except.error () by
            unfold respStep parseJSON
            rw [hf]
            rfl]
          rfl
      | ok v =>
          have hr : ∃ g ∈ rest, g.2 = Parsed.corrupt := by
            rcases h with ⟨g, hg, hgc⟩
            rcases List.mem_cons.mp hg with hgf | hgr
            · rw [hgf] at hgc; rw [hgc] at hf; cases hf
            · exact ⟨g, hgr, hgc⟩
          rw [show respStep st f = Except.ok
              { st with responseHistory := setA st.responseHistory f.1 v,
                        allResponseHistory := st.allResponseHistory ++ tagRecords f.1 v } by
            unfold respStep parseJSON
            rw [hf]
            rfl]
          exact ih _ hr

theorem exceptBind_error {α β : Type} (e : Except Unit α)
    (f : α → Except Unit β) (h : ∀ a, f a = Except.error ()) :
    e >>= f = Except.error () := by
  cases e with
  | error u => cases u; rfl
  | ok a => simpa using h a

theorem continue_null_paused (st : SessionState) (now : Nat)
    (hp : st.pausedConversation = true) :
    (continueConversation HistoryIdx.null now st).1.conversationContext =
        st.pausedConversationContext ∧
    (continueConversation HistoryIdx.null now st).1.currentConversationId =
        st.pausedConversationId ∧
    (continueConversation HistoryIdx.null now st).1.lastResponseId =
        (match recoveredResponse st with
         | some m => some m.id
         | none => st.lastResponseId) ∧
    (continueConversation HistoryIdx.null now st).1.pausedConversation = false ∧
    (continueConversation HistoryIdx.null now st).1.pausedConversationContext = [] ∧
    (continueConversation HistoryIdx.null now st).1.pausedConversationId = none ∧
    (continueConversation HistoryIdx.null now st).2 = true := by
  unfold continueConversation
  rw [if_pos ⟨rfl, hp⟩]
  cases hrec : recoveredResponse st <;>
    simp only [hrec] <;>
    refine ⟨?_, ?_, ?_, ?_, ?_, ?_, ?_⟩ <;>
    (repeat' split) <;> trivial

theorem buildContext_dup (ctx : List Message) (prompt full : String)
    (h : ctx.getLast? = some { role := "user", content := prompt }) :
    buildContext ctx prompt full =
      ctx ++ [{ role := "assistant", content := full }] := by
  unfold buildContext
  have hne : ¬ ctx.length = 0 := by
    cases ctx <;> simp_all
  rw [if_neg hne, h]
  simp

theorem buildContext_nodup (ctx : List Message) (prompt full : String)
    (h : ctx.getLast? ≠ some { role := "user", content := prompt }) :
    buildContext ctx prompt full =
      ctx ++ [{ role := "user", content := prompt },
              { role := "assistant", content := full }] := by
  unfold buildContext
  by_cases h0 : ctx.length = 0
  · have hnil : ctx = [] := List.length_eq_zero.mp h0
    simp [hnil]
  · rw [if_neg h0]
    cases hl : ctx.getLast? with
    | none => simp
    | some lm =>
        have hcond : ¬(lm.role = "user" ∧ lm.content = prompt) := by
          rintro ⟨h1, h2⟩
          apply h
          rw [hl]
          congr 1
          cases lm
          simp_all
        simp [hcond]

theorem buildContext_getLast (ctx : List Message) (prompt full : String) :
    (buildContext ctx prompt full).getLast? =
      some { role := "assistant", content := full } := by
  unfold buildContext
  exact List.getLast?_concat _

/-- C2: for every completed exchange with non-empty response text,
appendExchange appends the user message only when the last context message
is not an identical user turn, appends the assistant message, copies the
result into the paused snapshot with pausedConversationId equal to the
current conversation id and paused set, and clears the active context; the
snapshot therefore ends with the assistant message, preceded by the user
message unless the duplicate guard suppressed it. -/
theorem clip_c2 (prompt full : String) (responseId : Option String) (now : Nat)
    (st : SessionState) (hfull : full ≠ "") :
    (appendExchange prompt full responseId now st).pausedConversation = true ∧
    (appendExchange prompt full responseId now st).conversationContext = [] ∧
    (appendExchange prompt full responseId now st).pausedConversationId =
      (appendExchange prompt full responseId now st).currentConversationId ∧
    (st.conversationContext.getLast? = some { role := "user", content := prompt } →
      (appendExchange prompt full responseId now st).pausedConversationContext =
        st.conversationContext ++ [{ role := "assistant", content := full }]) ∧
    (st.conversationContext.getLast? ≠ some { role := "user", content := prompt } →
      (appendExchange prompt full responseId now st).pausedConversationContext =
        st.conversationContext ++
          [{ role := "user", content := prompt },
           { role := "assistant", content := full }]) ∧
    (appendExchange prompt full responseId now st).pausedConversationContext.getLast? =
      some { role := "assistant", content := full } := by
  unfold appendExchange
  rw [if_neg hfull]
  refine ⟨?_, ?_, ?_, ?_, ?_, ?_⟩ <;>
    (repeat' split) <;>
    simp_all [saveResponseToHistory_pausedConversation,
      saveResponseToHistory_conversationContext,
      saveResponseToHistory_pausedConversationContext,
      saveResponseToHistory_pausedConversationId,
      saveResponseToHistory_currentConversationId,
      buildContext_dup, buildContext_nodup, buildContext_getLast]

/-- Witness for C2: the scenario exchange ("hi", "hello!", "resp_1") on a
fresh conversation satisfies the theorem's hypothesis and produces the
two-message snapshot. -/
theorem clip_c2_witness :
    ("hello!" : String) ≠ "" ∧
    (appendExchange "hi" "hello!" (some "resp_1") 7 exampleStart).pausedConversationContext =
      [{ role := "user", content := "hi" }, { role := "assistant", content := "hello!" }] ∧
    (appendExchange "hi" "hello!" (some "resp_1") 7 exampleStart).conversationContext = [] := by
  have h := clip_c2 "hi" "hello!" (some "resp_1") 7 exampleStart (by decide)
  refine ⟨by decide, ?_, h.2.1⟩
  have h5 := h.2.2.2.2.1 (by decide)
  rw [h5]
  decide

/-- C3: resolve(None) while paused restores the active context to the
paused snapshot and the current conversation id to the paused one,
recovers lastResponseId from the record of that conversation's history
whose full response text equals the content of the snapshot's most recent
assistant message (leaving it unchanged when no record matches), and
clears the paused snapshot. -/
theorem clip_c3 (st : SessionState) (now : Nat)
    (hp : st.pausedConversation = true) :
    (continueConversation HistoryIdx.null now st).1.conversationContext =
        st.pausedConversationContext ∧
    (continueConversation HistoryIdx.null now st).1.currentConversationId =
        st.pausedConversationId ∧
    (continueConversation HistoryIdx.null now st).1.lastResponseId =
        (match recoveredResponse st with
         | some m => some m.id
         | none => st.lastResponseId) ∧
    (continueConversation HistoryIdx.null now st).1.pausedConversation = false ∧
    (continueConversation HistoryIdx.null now st).1.pausedConversationContext = [] ∧
    (continueConversation HistoryIdx.null now st).1.pausedConversationId = none := by
  have h := continue_null_paused st now hp
  exact ⟨h.1, h.2.1, h.2.2.1, h.2.2.2.1, h.2.2.2.2.1, h.2.2.2.2.2.1⟩

/-- Witness for C3: the spec's scenario.  After appendExchange("hi",
"hello!", "resp_1") the state is paused; resolve(None) restores the
two-message context, recovers lastResponseId = "resp_1" and clears the
snapshot. -/
theorem clip_c3_witness :
    examplePaused.pausedConversation = true ∧
    (continueConversation HistoryIdx.null 9 examplePaused).1.conversationContext =
      [{ role := "user", content := "hi" }, { role := "assistant", content := "hello!" }] ∧
    (continueConversation HistoryIdx.null 9 examplePaused).1.lastResponseId =
      some "resp_1" ∧
    (continueConversation HistoryIdx.null 9 examplePaused).1.pausedConversation = false ∧
    (continueConversation HistoryIdx.null 9 examplePaused).1.pausedConversationContext = [] := by
  have h := clip_c3 examplePaused 9 (by decide)
  refine ⟨by decide, ?_, ?_, h.2.2.2.1, h.2.2.2.2.1⟩
  · rw [h.1]
    decide
  · rw [h.2.2.1]
    decide

/-- C4: for a current conversation with k records and a valid 1-based
index n, resolve(Index(n)) sets lastResponseId to record n's id (counting
most recent first) and replaces the active context with exactly the
user/assistant pair reconstructed from that record, keeping the current
conversation. -/
theorem clip_c4 (st : SessionState) (now n : Nat) (cid : String)
    (resps : List HistoryEntry) (rec : HistoryEntry)
    (hcid : st.currentConversationId = some cid) (hcid2 : cid ≠ "")
    (hl : lookupA st.responseHistory cid = some resps)
    (h1 : 1 ≤ n) (hk : n ≤ resps.length) (hrec : resps[n - 1]? = some rec) :
    (continueConversation (HistoryIdx.int ((n : Int) - 1)) now st).2 = true ∧
    (continueConversation (HistoryIdx.int ((n : Int) - 1)) now st).1.lastResponseId =
      some rec.id ∧
    (continueConversation (HistoryIdx.int ((n : Int) - 1)) now st).1.conversationContext =
      [{ role := "user", content := rec.prompt },
       { role := "assistant", content := rec.fullResponse }] ∧
    (continueConversation (HistoryIdx.int ((n : Int) - 1)) now st).1.currentConversationId =
      some cid := by
  have hcur : currentResponses st = resps := by
    unfold currentResponses
    rw [hcid]
    simp [hcid2, hl]
  have hsel : selectIdx (HistoryIdx.int ((n : Int) - 1)) (currentResponses st) =
      some rec := by
    unfold selectIdx
    rw [hcur]
    have hcond : 0 ≤ (n : Int) - 1 ∧ (n : Int) - 1 < (resps.length : Int) := by
      constructor <;> omega
    show (if 0 ≤ (n : Int) - 1 ∧ (n : Int) - 1 < (resps.length : Int) then
        resps[((n : Int) - 1).toNat]? else none) = some rec
    rw [if_pos hcond]
    have htn : ((n : Int) - 1).toNat = n - 1 := by omega
    rw [htn, hrec]
  unfold continueConversation
  rw [if_neg (by simp)]
  simp only [hsel]
  simp [optTruthy, hcid, hcid2]

set_option maxRecDepth 8192 in
/-- Witness for C4: the spec's scenario with three records; the
selector Index(2) picks the second most recent record. -/
theorem clip_c4_witness :
    lookupA stateW4.responseHistory (mintConvId 1) =
      some [entryW4a, entryW4b, entryW4c] ∧
    (continueConversation (HistoryIdx.int (((2 : Nat) : Int) - 1)) 9 stateW4).1.lastResponseId =
      some "id2" ∧
    (continueConversation (HistoryIdx.int (((2 : Nat) : Int) - 1)) 9 stateW4).1.conversationContext =
      [{ role := "user", content := "p2" }, { role := "assistant", content := "r2" }] := by
  have h := clip_c4 stateW4 9 2 (mintConvId 1) [entryW4a, entryW4b, entryW4c] entryW4b
    (by decide) (by decide) (by decide) (by decide) (by decide) (by decide)
  exact ⟨by decide, h.2.1, h.2.2.1⟩

theorem currentResponses_none (st : SessionState)
    (hc : st.currentConversationId = none) : currentResponses st = [] := by
  unfold currentResponses
  rw [hc]

theorem currentResponses_empty (st : SessionState) (cid : String)
    (hc : st.currentConversationId = some cid) (hcid : cid = "") :
    currentResponses st = [] := by
  unfold currentResponses
  rw [hc]
  simp [hcid]

theorem currentResponses_eq (st : SessionState) (cid : String)
    (hc : st.currentConversationId = some cid) (hcid : cid ≠ "") :
    currentResponses st = (lookupA st.responseHistory cid).getD [] := by
  unfold currentResponses
  rw [hc]
  simp [hcid]

set_option maxRecDepth 8192 in
/-- Counterexample to C5: with one record in the current conversation, the
out-of-range selector Index(5) (historyIndex 4) is not reported as
"nothing to continue from": the resolver falls through to the
most-recent-record path, reports success and mutates the session state. -/
theorem clip_c5_counterexample :
    (continueConversation (HistoryIdx.int 4) 9 stateW5).2 = true ∧
    (continueConversation (HistoryIdx.int 4) 9 stateW5).1.lastResponseId =
      some "resp_1" ∧
    (continueConversation (HistoryIdx.int 4) 9 stateW5).1 ≠ stateW5 := by
  decide

/-- C5 as amended: an invalid explicit index (out of range, non-positive
or unparseable) is not reported specially; the resolver falls through to
the current conversation's most recent record when one exists, and only
when the current conversation has no response records and the global
history is empty is the request reported as a nothing-to-continue outcome
with the session state returned entirely unchanged. -/
theorem clip_c5_amended (st : SessionState) (historyIndex : HistoryIdx) (now : Nat)
    (hsel : historyIndex ≠ HistoryIdx.null)
    (hinv : selectIdx historyIndex (currentResponses st) = none) :
    (currentResponses st = [] → st.allResponseHistory = [] →
      continueConversation historyIndex now st = (st, false)) ∧
    (∀ rec rest, currentResponses st = rec :: rest →
      (continueConversation historyIndex now st).2 = true ∧
      (continueConversation historyIndex now st).1.lastResponseId = some rec.id ∧
      (continueConversation historyIndex now st).1.conversationContext =
        [{ role := "user", content := rec.prompt },
         { role := "assistant", content := rec.fullResponse }]) := by
  have hne1 : ¬(historyIndex = HistoryIdx.null ∧ st.pausedConversation = true) :=
    fun hand => hsel hand.1
  constructor
  · intro hcur hglob
    have hfall : continueFallback now st = (st, false) := by
      unfold continueFallback
      rw [hglob]
    unfold continueConversation
    rw [if_neg hne1]
    simp only [hinv]
    cases hc : st.currentConversationId with
    | none => simp [hfall]
    | some cid =>
        by_cases hcid : cid = ""
        · simp [hcid, hfall]
        · rw [currentResponses_eq st cid hc hcid] at hcur
          cases hl : lookupA st.responseHistory cid with
          | none => simp [hcid, hl, hfall]
          | some l =>
              rw [hl] at hcur
              simp only [Option.getD_some] at hcur
              subst hcur
              simp [hcid, hl, hfall]
  · intro rec rest hcur
    unfold continueConversation
    rw [if_neg hne1]
    simp only [hinv]
    cases hc : st.currentConversationId with
    | none => rw [currentResponses_none st hc] at hcur; cases hcur
    | some cid =>
        by_cases hcid : cid = ""
        · rw [currentResponses_empty st cid hc hcid] at hcur; cases hcur
        · rw [currentResponses_eq st cid hc hcid] at hcur
          cases hl : lookupA st.responseHistory cid with
          | none => rw [hl] at hcur; cases hcur
          | some l =>
              rw [hl] at hcur
              simp only [Option.getD_some] at hcur
              subst hcur
              simp [hcid, hl]

/-- Witness for C5 (amended): on the empty initial state the invalid
index Index(5) is reported as nothing-to-continue and the state is
returned unchanged. -/
theorem clip_c5_witness :
    selectIdx (HistoryIdx.int 4) (currentResponses resetState) = none ∧
    continueConversation (HistoryIdx.int 4) 9 resetState = (resetState, false) := by
  have h := clip_c5_amended resetState (HistoryIdx.int 4) 9 (by decide) (by decide)
  exact ⟨by decide, h.1 (by decide) (by decide)⟩

/-- C8: when the current conversation has no response records (or there is
no current conversation), the paused resume does not apply, and the global
history is non-empty, the resolver takes the globally most recent record,
mints a conversation id from the current clock — distinct from the old
record's id, which was minted at a different millisecond — and rebuilds
the active context as exactly the record's user/assistant pair. -/
theorem clip_c8 (st : SessionState) (now t : Nat) (historyIndex : HistoryIdx)
    (rec : GlobalEntry) (rest : List GlobalEntry)
    (hglob : st.allResponseHistory = rec :: rest)
    (hcur : currentResponses st = [])
    (hnp : historyIndex = HistoryIdx.null → st.pausedConversation = false)
    (hmint : rec.conversationId = mintConvId t) (ht : t ≠ now) :
    (continueConversation historyIndex now st).2 = true ∧
    (continueConversation historyIndex now st).1.currentConversationId =
      some (mintConvId now) ∧
    (continueConversation historyIndex now st).1.currentConversationId ≠
      some rec.conversationId ∧
    (continueConversation historyIndex now st).1.lastResponseId = some rec.id ∧
    (continueConversation historyIndex now st).1.conversationContext =
      [{ role := "user", content := rec.prompt },
       { role := "assistant", content := rec.fullResponse }] := by
  have hne1 : ¬(historyIndex = HistoryIdx.null ∧ st.pausedConversation = true) := by
    rintro ⟨h1, h2⟩
    rw [hnp h1] at h2
    cases h2
  have hsel : selectIdx historyIndex (currentResponses st) = none := by
    rw [hcur]
    cases historyIndex <;> simp [selectIdx]
  have hfall : continueFallback now st =
      ({ st with
          lastResponseId := some rec.id,
          currentConversationId := some (mintConvId now),
          conversationContext :=
            [{ role := "user", content := rec.prompt },
             { role := "assistant", content := rec.fullResponse }] }, true) := by
    unfold continueFallback
    rw [hglob]
  have hdist : some (mintConvId now) ≠ some rec.conversationId := by
    rw [hmint]
    intro h
    have h2 : mintConvId now = mintConvId t := by injection h
    exact ht (mintConvId_injective now t h2).symm
  unfold continueConversation
  rw [if_neg hne1]
  simp only [hsel]
  cases hc : st.currentConversationId with
  | none => simp [hfall, hdist]
  | some cid =>
      by_cases hcid : cid = ""
      · simp [hcid, hfall, hdist]
      · rw [currentResponses_eq st cid hc hcid] at hcur
        cases hl : lookupA st.responseHistory cid with
        | none => simp [hcid, hl, hfall, hdist]
        | some l =>
            rw [hl] at hcur
            simp only [Option.getD_some] at hcur
            subst hcur
            simp [hcid, hl, hfall, hdist]

set_option maxRecDepth 8192 in
/-- Witness for C8: the spec's scenario — no current conversation, one
global record from old conversation conv_1; resolve(None) mints conv_9,
distinct from conv_1, and rebuilds the pair. -/
theorem clip_c8_witness :
    stateW8.allResponseHistory = [entryW8] ∧
    currentResponses stateW8 = [] ∧
    entryW8.conversationId = mintConvId 1 ∧
    (continueConversation HistoryIdx.null 9 stateW8).1.currentConversationId =
      some (mintConvId 9) ∧
    (continueConversation HistoryIdx.null 9 stateW8).1.currentConversationId ≠
      some entryW8.conversationId ∧
    (continueConversation HistoryIdx.null 9 stateW8).1.lastResponseId =
      some "resp_old" := by
  have h := clip_c8 stateW8 9 1 HistoryIdx.null entryW8 [] (by decide) (by decide)
    (fun _ => by decide) (by decide) (by decide)
  exact ⟨by decide, by decide, by decide, h.2.1, h.2.2.1, h.2.2.2.1⟩

/-- C10: every resolver path other than the implicit resume leaves the
paused snapshot untouched — whether the continuation succeeds via an
explicit index, the current conversation's most recent record, or the
cross-conversation fallback, the paused flag, snapshot context and paused
conversation id keep their prior values, and a conversation that was
paused beforehand is still restored by a later bare resolve(None). -/
theorem clip_c10 (st : SessionState) (historyIndex : HistoryIdx) (now now2 : Nat)
    (hne1 : ¬(historyIndex = HistoryIdx.null ∧ st.pausedConversation = true))
    (hok : (continueConversation historyIndex now st).2 = true) :
    (continueConversation historyIndex now st).1.pausedConversation =
      st.pausedConversation ∧
    (continueConversation historyIndex now st).1.pausedConversationContext =
      st.pausedConversationContext ∧
    (continueConversation historyIndex now st).1.pausedConversationId =
      st.pausedConversationId ∧
    (st.pausedConversation = true →
      (continueConversation HistoryIdx.null now2
          ((continueConversation historyIndex now st).1)).1.conversationContext =
        st.pausedConversationContext ∧
      (continueConversation HistoryIdx.null now2
          ((continueConversation historyIndex now st).1)).1.currentConversationId =
        st.pausedConversationId) := by
  have frame :
      (continueConversation historyIndex now st).1.pausedConversation =
        st.pausedConversation ∧
      (continueConversation historyIndex now st).1.pausedConversationContext =
        st.pausedConversationContext ∧
      (continueConversation historyIndex now st).1.pausedConversationId =
        st.pausedConversationId := by
    unfold continueConversation
    rw [if_neg hne1]
    cases hsel : selectIdx historyIndex (currentResponses st) <;>
      refine ⟨?_, ?_, ?_⟩ <;>
      (repeat' split) <;>
      simp_all [continueFallback,
        apply_ite SessionState.pausedConversation,
        apply_ite SessionState.pausedConversationContext,
        apply_ite SessionState.pausedConversationId] <;>
      (repeat' split) <;> rfl
  refine ⟨frame.1, frame.2.1, frame.2.2, ?_⟩
  intro hp
  have hp2 : (continueConversation historyIndex now st).1.pausedConversation = true := by
    rw [frame.1, hp]
  have h2 := continue_null_paused ((continueConversation historyIndex now st).1) now2 hp2
  constructor
  · rw [h2.1, frame.2.1]
  · rw [h2.2.1, frame.2.2]

set_option maxRecDepth 8192 in
/-- Witness for C10: with conv_1 paused and conv_2 current, the explicit
continuation Index(1) succeeds via path 2, preserves the paused snapshot,
and a subsequent bare resolve(None) still restores conv_1's context. -/
theorem clip_c10_witness :
    stateW10.pausedConversation = true ∧
    (continueConversation (HistoryIdx.int 0) 8 stateW10).2 = true ∧
    (continueConversation (HistoryIdx.int 0) 8 stateW10).1.pausedConversationContext =
      stateW10.pausedConversationContext ∧
    (continueConversation HistoryIdx.null 9
        ((continueConversation (HistoryIdx.int 0) 8 stateW10).1)).1.conversationContext =
      [{ role := "user", content := "a" }, { role := "assistant", content := "b" }] := by
  have h := clip_c10 stateW10 (HistoryIdx.int 0) 8 9 (by decide) (by decide)
  have h4 := (h.2.2.2 (by decide)).1
  refine ⟨by decide, by decide, h.2.1, ?_⟩
  rw [h4]
  decide

set_option maxRecDepth 8192 in
/-- Counterexample to C6: on a disk whose state file is intact, whose
conv_good response file is intact and whose conv_bad response file is
corrupt, load() does not keep conv_good's records or the session state: it
resets everything, so the claim that only the corrupt conversation's
contribution is skipped fails. -/
theorem clip_c6_counterexample :
    stateFileW6.lastResponseId = some "resp_1" ∧
    diskW6.responseFiles = [("conv_good", Parsed.ok [entryW6]), ("conv_bad", Parsed.corrupt)] ∧
    lookupA (loadState resetState diskW6).responseHistory "conv_good" = none ∧
    (loadState resetState diskW6).lastResponseId = none ∧
    loadState resetState diskW6 = resetState := by
  decide

/-- C6 as amended: a corrupt persisted file never crashes startup — the
error is caught and logged — but the recovery is global rather than local:
load() falls back to resetState(), discarding the session state and every
conversation's loaded data, not just the corrupt record's contribution. -/
theorem clip_c6_amended (st : SessionState) (d : Disk)
    (hc : d.stateFile = some Parsed.corrupt ∨
      (∃ f ∈ d.conversationFiles, f.2 = Parsed.corrupt) ∨
      (∃ f ∈ d.responseFiles, f.2 = Parsed.corrupt)) :
    loadState st d = resetState := by
  have hcore : loadStateCore st d = Except.error () := by
    rcases hc with h1 | h2 | h3
    · unfold loadStateCore
      rw [h1]
      rfl
    · unfold loadStateCore
      apply exceptBind_error
      intro a
      rw [foldlM_convStep_corrupt d.conversationFiles a h2]
      rfl
    · unfold loadStateCore
      apply exceptBind_error
      intro a
      apply exceptBind_error
      intro b
      rw [foldlM_respStep_corrupt d.responseFiles b h3]
      rfl
  unfold loadState
  rw [hcore]

/-- Witness for C6 (amended): the concrete corrupt disk of the
counterexample satisfies the hypothesis, and load() on it yields the
reset state. -/
theorem clip_c6_witness :
    (("conv_bad", (Parsed.corrupt : Parsed (List HistoryEntry))) ∈ diskW6.responseFiles) ∧
    loadState resetState diskW6 = resetState := by
  refine ⟨by decide, ?_⟩
  exact clip_c6_amended resetState diskW6
    (Or.inr (Or.inr ⟨("conv_bad", Parsed.corrupt), by decide, rfl⟩))

theorem string_take_of_length_le (s : String) (n : Nat) (h : s.length ≤ n) :
    s.take n = s := by
  rw [String.take_eq]
  exact String.ext (List.take_of_length_le h)

set_option maxRecDepth 8192 in
/-- Counterexample to C7: recording a 150-character response stores a
103-character display truncation in the record's response field; the full
text lives in the fullResponse field instead. -/
theorem clip_c7_counterexample :
    lookupA (saveResponseToHistory "p" longResponse (some "resp_9") 3 stateW7).responseHistory
      (mintConvId 1) = some [mkHistoryEntry "p" longResponse "resp_9" 3] ∧
    (mkHistoryEntry "p" longResponse "resp_9" 3).response ≠ longResponse ∧
    (mkHistoryEntry "p" longResponse "resp_9" 3).fullResponse = longResponse := by
  refine ⟨by decide, by decide, rfl⟩

/-- C7 as amended: every committed ResponseRecord stores the full response
text in its fullResponse field and is prepended to its conversation's
list; the response field is a display copy — equal to the full text when
it has at most 100 characters, and truncated to the first 100 characters
plus an ellipsis when longer. -/
theorem clip_c7_amended (userPrompt aiResponse rid : String) (now : Nat)
    (st : SessionState) (cid : String)
    (hcid : st.currentConversationId = some cid)
    (h1 : rid ≠ "") (h2 : aiResponse ≠ "") (h3 : cid ≠ "") :
    lookupA (saveResponseToHistory userPrompt aiResponse (some rid) now st).responseHistory cid =
      some (mkHistoryEntry userPrompt aiResponse rid now ::
        ((lookupA st.responseHistory cid).getD []).take (MAX_HISTORY - 1)) ∧
    (mkHistoryEntry userPrompt aiResponse rid now).fullResponse = aiResponse ∧
    (aiResponse.length ≤ 100 →
      (mkHistoryEntry userPrompt aiResponse rid now).response = aiResponse) ∧
    (100 < aiResponse.length →
      (mkHistoryEntry userPrompt aiResponse rid now).response =
        aiResponse.take 100 ++ "...") := by
  refine ⟨?_, rfl, ?_, ?_⟩
  · have hsave : saveResponseToHistory userPrompt aiResponse (some rid) now st =
        { st with
            responseHistory := setA st.responseHistory cid
              (insertRecord (mkHistoryEntry userPrompt aiResponse rid now)
                ((lookupA st.responseHistory cid).getD [])),
            allResponseHistory := insertGlobalRecord
              { toHistoryEntry := mkHistoryEntry userPrompt aiResponse rid now,
                conversationId := cid } st.allResponseHistory } := by
      unfold saveResponseToHistory
      rw [hcid]
      simp [h1, h2, h3]
    rw [hsave]
    simp only [lookupA_setA_self]
    congr 1
    unfold insertRecord
    rw [capList_eq_take]
    have h50 : MAX_HISTORY = 49 + 1 := rfl
    rw [h50, List.take_succ_cons]
  · intro hle
    unfold mkHistoryEntry displayResponse
    rw [if_neg (by omega), string_take_of_length_le aiResponse 100 hle]
    simp
  · intro hgt
    unfold mkHistoryEntry displayResponse
    rw [if_pos hgt]

set_option maxRecDepth 8192 in
/-- Witness for C7 (amended): the short exchange record of the resume
scenario keeps its full text in both fields. -/
theorem clip_c7_witness :
    stateW7.currentConversationId = some (mintConvId 1) ∧
    lookupA (saveResponseToHistory "hi" "hello!" (some "resp_1") 7 stateW7).responseHistory
      (mintConvId 1) = some [mkHistoryEntry "hi" "hello!" "resp_1" 7] ∧
    (mkHistoryEntry "hi" "hello!" "resp_1" 7).fullResponse = "hello!" ∧
    (mkHistoryEntry "hi" "hello!" "resp_1" 7).response = "hello!" := by
  have h := clip_c7_amended "hi" "hello!" "resp_1" 7 stateW7 (mintConvId 1)
    (by decide) (by decide) (by decide) (by decide)
  refine ⟨by decide, ?_, h.2.1, h.2.2.1 (by decide)⟩
  rw [h.1]
  decide

/-- C9: for every sequence of insertions starting from an empty list, a
conversation's response list is the reverse of the insertion order
truncated to 50 entries (so it holds at most 50, most recent first) and
the global list is the same with cap 250; in particular 51 insertions
leave exactly the 50 most recent, the oldest being evicted. -/
theorem clip_c9 (rs : List HistoryEntry) (gs : List GlobalEntry) :
    (rs.foldl (fun acc r => insertRecord r acc) []).length ≤ MAX_HISTORY ∧
    rs.foldl (fun acc r => insertRecord r acc) [] = rs.reverse.take MAX_HISTORY ∧
    gs.foldl (fun acc g => insertGlobalRecord g acc) [] =
      gs.reverse.take (MAX_HISTORY * 5) ∧
    (gs.foldl (fun acc g => insertGlobalRecord g acc) []).length ≤ MAX_HISTORY * 5 ∧
    (rs.length = 51 →
      (rs.foldl (fun acc r => insertRecord r acc) []).length = 50 ∧
      rs.foldl (fun acc r => insertRecord r acc) [] = (rs.drop 1).reverse) := by
  have hconv : rs.foldl (fun acc r => insertRecord r acc) [] =
      rs.reverse.take MAX_HISTORY := by
    have h := foldl_capCons MAX_HISTORY rs [] (by simp)
    simpa [insertRecord] using h
  have hglob : gs.foldl (fun acc g => insertGlobalRecord g acc) [] =
      gs.reverse.take (MAX_HISTORY * 5) := by
    have h := foldl_capCons (MAX_HISTORY * 5) gs [] (by simp)
    simpa [insertGlobalRecord] using h
  refine ⟨?_, hconv, hglob, ?_, ?_⟩
  · rw [hconv]
    simp [List.length_take]
  · rw [hglob]
    simp [List.length_take]
  · intro h51
    have hsplit : rs.reverse = (rs.drop 1).reverse ++ (rs.take 1).reverse := by
      rw [← List.reverse_append, List.take_append_drop]
    have hlen : (rs.drop 1).reverse.length = MAX_HISTORY := by
      simp [List.length_drop, h51, MAX_HISTORY]
    constructor
    · rw [hconv]
      simp [List.length_take, List.length_reverse, h51, MAX_HISTORY]
    · rw [hconv, hsplit, List.take_left' hlen]

/-- Witness for C9: inserting 51 concrete records leaves exactly the 50
most recent ones, the first-inserted record evicted. -/
theorem clip_c9_witness :
    recordsW9.length = 51 ∧
    (recordsW9.foldl (fun acc r => insertRecord r acc) []).length = 50 ∧
    recordsW9.foldl (fun acc r => insertRecord r acc) [] =
      (recordsW9.drop 1).reverse := by
  have h := (clip_c9 recordsW9 []).2.2.2.2 (by simp [recordsW9])
  exact ⟨by simp [recordsW9], h.1, h.2⟩

set_option maxRecDepth 8192 in
/-- Counterexample to C1: the reachable paused state of the resume
scenario is saved; load() alone restores it, but startCLI then always
starts a fresh conversation, so after the restart the paused flag, paused
snapshot, current conversation id and last response id are NOT the values
last saved. -/
theorem clip_c1_counterexample :
    examplePaused.pausedConversation = true ∧
    examplePaused.lastResponseId = some "resp_1" ∧
    (loadState resetState (diskOf examplePaused)).pausedConversation = true ∧
    (startCLI (diskOf examplePaused)).pausedConversation = false ∧
    (startCLI (diskOf examplePaused)).lastResponseId = none ∧
    (startCLI (diskOf examplePaused)).pausedConversationContext = [] := by
  decide

theorem okBind {α β : Type} (a : α) (f : α → Except Unit β) :
    (Except.ok a >>= f) = f a := rfl

theorem loadState_diskOf (st : SessionState)
    (hnodupC : (st.conversationHistories.map Prod.fst).Nodup)
    (hnodupR : (st.responseHistory.map Prod.fst).Nodup) :
    loadState resetState (diskOf st) =
      { lastResponseId := st.lastResponseId,
        conversationContext := st.conversationContext,
        currentConversationId := st.currentConversationId,
        pausedConversation := st.pausedConversation,
        pausedConversationContext := st.pausedConversationContext,
        pausedConversationId := st.pausedConversationId,
        commandHistory := [],
        conversationHistories := st.conversationHistories,
        responseHistory := st.responseHistory,
        allResponseHistory := sortByTimestampDesc
          ((st.responseHistory.map (fun p => tagRecords p.1 p.2)).flatten) } := by
  have hch : st.conversationHistories.foldl (fun m p => setA m p.1 p.2) [] =
      st.conversationHistories := by
    have h0 := foldl_setA_of_nodup st.conversationHistories [] (fun p _ => rfl) hnodupC
    rw [h0]
    rfl
  have hrh : st.responseHistory.foldl (fun m p => setA m p.1 p.2) [] =
      st.responseHistory := by
    have h0 := foldl_setA_of_nodup st.responseHistory [] (fun p _ => rfl) hnodupR
    rw [h0]
    rfl
  have hS : stateFileStep resetState (diskOf st).stateFile =
      Except.ok (applyStateFile resetState (stateFileOf st)) := rfl
  have hA : (diskOf st).conversationFiles =
      st.conversationHistories.map (fun p => (p.1, Parsed.ok p.2)) := rfl
  have hB : (diskOf st).responseFiles =
      st.responseHistory.map (fun p => (p.1, Parsed.ok p.2)) := rfl
  have hcore : loadStateCore resetState (diskOf st) = Except.ok
      { lastResponseId := st.lastResponseId,
        conversationContext := st.conversationContext,
        currentConversationId := st.currentConversationId,
        pausedConversation := st.pausedConversation,
        pausedConversationContext := st.pausedConversationContext,
        pausedConversationId := st.pausedConversationId,
        commandHistory := [],
        conversationHistories := st.conversationHistories,
        responseHistory := st.responseHistory,
        allResponseHistory := sortByTimestampDesc
          ((st.responseHistory.map (fun p => tagRecords p.1 p.2)).flatten) } := by
    unfold loadStateCore
    rw [hS]
    simp only [okBind, hA, hB, foldlM_convStep_ok, foldlM_respStep_ok,
      applyStateFile, stateFileOf, resetState, hch, hrh, List.nil_append]
    rfl
  unfold loadState
  rw [hcore]

/-- C1 as amended: load() alone does restore the persisted session — the
six session/continuation fields come back exactly as saved, each
conversation's response list is reloaded exactly (no exchange lost or
duplicated), and the rebuilt global view is a permutation of all saved
records sorted by timestamp — but startCLI deliberately resets the
session/continuation fields ("always start with a fresh conversation")
after loading, so across a process restart only the recorded exchanges
and conversation histories survive, not the conversation id, paused flag,
paused snapshot or last response id. -/
theorem clip_c1_amended (st : SessionState)
    (hnodupC : (st.conversationHistories.map Prod.fst).Nodup)
    (hnodupR : (st.responseHistory.map Prod.fst).Nodup) :
    (loadState resetState (diskOf st)).lastResponseId = st.lastResponseId ∧
    (loadState resetState (diskOf st)).conversationContext = st.conversationContext ∧
    (loadState resetState (diskOf st)).currentConversationId = st.currentConversationId ∧
    (loadState resetState (diskOf st)).pausedConversation = st.pausedConversation ∧
    (loadState resetState (diskOf st)).pausedConversationContext =
      st.pausedConversationContext ∧
    (loadState resetState (diskOf st)).pausedConversationId = st.pausedConversationId ∧
    (loadState resetState (diskOf st)).responseHistory = st.responseHistory ∧
    (loadState resetState (diskOf st)).conversationHistories = st.conversationHistories ∧
    (loadState resetState (diskOf st)).allResponseHistory.Perm
      ((st.responseHistory.map (fun p => tagRecords p.1 p.2)).flatten) ∧
    (startCLI (diskOf st)).responseHistory = st.responseHistory ∧
    (startCLI (diskOf st)).conversationHistories = st.conversationHistories ∧
    (startCLI (diskOf st)).lastResponseId = none ∧
    (startCLI (diskOf st)).conversationContext = [] ∧
    (startCLI (diskOf st)).currentConversationId = none ∧
    (startCLI (diskOf st)).pausedConversation = false ∧
    (startCLI (diskOf st)).pausedConversationContext = [] ∧
    (startCLI (diskOf st)).pausedConversationId = none := by
  have hload := loadState_diskOf st hnodupC hnodupR
  have hstart : startCLI (diskOf st) =
      { loadState resetState (diskOf st) with
          lastResponseId := none,
          conversationContext := [],
          currentConversationId := none,
          pausedConversation := false,
          pausedConversationContext := [],
          pausedConversationId := none,
          commandHistory := [] } := rfl
  rw [hstart, hload]
  refine ⟨rfl, rfl, rfl, rfl, rfl, rfl, rfl, rfl, ?_,
    rfl, rfl, rfl, rfl, rfl, rfl, rfl, rfl⟩
  unfold sortByTimestampDesc
  exact List.mergeSort_perm _ _

set_option maxRecDepth 8192 in
/-- Witness for C1 (amended): the saved paused scenario state has
distinct conversation keys; its response history survives load() and the
startCLI reset, while the session fields are reset. -/
theorem clip_c1_witness :
    ((examplePaused.conversationHistories.map Prod.fst).Nodup ∧
     (examplePaused.responseHistory.map Prod.fst).Nodup) ∧
    (loadState resetState (diskOf examplePaused)).responseHistory =
      examplePaused.responseHistory ∧
    (startCLI (diskOf examplePaused)).responseHistory =
      examplePaused.responseHistory := by
  have h := clip_c1_amended examplePaused (by decide) (by decide)
  exact ⟨⟨by decide, by decide⟩, h.2.2.2.2.2.2.1, h.2.2.2.2.2.2.2.2.2.1⟩
